import Mathlib

/-!
Shallow embedding of the two source files of the
`tensorflow_end2end_speech_recognition` repository:

* `experiments/timit/data/load_dataset_joint_ctc_attention.py`
  (class `Dataset`, the TIMIT joint CTC-attention dataset loader), and
* `models/attention/attention_seq2seq_base.py`
  (class `AttentionBase`, the attention seq2seq base model).

Python numeric values are modelled as `Int`/`Nat`/`ℚ`, numpy arrays as
lists, TensorFlow graph nodes as inductive ASTs recording the framework
primitive that was called together with its arguments, and Python
exceptions as an `Except` error monad.
-/

namespace TimitSpeech

/-- Python exceptions raised by the two files: `TypeError` (dataset
argument validation) and `ValueError` (optimizer name validation). -/
inductive PyError where
  | typeError (msg : String)
  | valueError (msg : String)
deriving DecidableEq

/-- Python `str.lower()`, character by character. -/
def pyLower (s : String) : String := ⟨s.toList.map Char.toLower⟩

/-- Lexicographic comparison of character lists by code point, the order
Python uses when comparing strings with `<` / `<=`. -/
def charListLe : List Char → List Char → Bool
  | [], _ => true
  | _ :: _, [] => false
  | a :: as, b :: bs => if a = b then charListLe as bs else decide (a < b)

/-- Python string `<=` (lexicographic by code point). -/
def pyStrLe (a b : String) : Bool := charListLe a.toList b.toList

/-- Inserting an element into a sorted list behind every element that
compares `le` to it; building block of the stable sort `pySorted`. -/
def insertOrd {α : Type} (le : α → α → Bool) (x : α) : List α → List α
  | [] => [x]
  | y :: ys => if le y x then y :: insertOrd le x ys else x :: y :: ys

/-- Python `sorted`: a stable sort by the boolean comparison `le`
(insertion sort, which computes the same list as any stable sort). -/
def pySorted {α : Type} (le : α → α → Bool) : List α → List α
  | [] => []
  | x :: xs => insertOrd le x (pySorted le xs)

/-- Whether one character list occurs contiguously at the start of another. -/
def startsWithChars : List Char → List Char → Bool
  | [], _ => true
  | _ :: _, [] => false
  | a :: as, b :: bs => a == b && startsWithChars as bs

/-- Whether `needle` occurs contiguously anywhere in `hay`. -/
def containsChars (needle : List Char) : List Char → Bool
  | [] => startsWithChars needle []
  | c :: rest => startsWithChars needle (c :: rest) || containsChars needle rest

/-- Python `needle in hay` on strings: substring containment. -/
def pyInStr (needle hay : String) : Bool := containsChars needle.toList hay.toList

/-- Python `os.path.join` for the absolute corpus paths used by the
loader (the second component is never absolute there). -/
def pathJoin (a b : String) : String := a ++ "/" ++ b

/-! ### Dataset loader (`load_dataset_joint_ctc_attention.py`) -/

/-- A single speech feature frame (one row of a loaded numpy array). -/
abbrev Frame := List ℚ

/-- A value returned by `np.load`: a sequence of frames. -/
abbrev NpyArray := List Frame

/-- The file system the loader reads from: `pickle.load` on the opened
`frame_num.pickle` file (the items of the frame number dictionary, in
dictionary order) and `np.load` on a `.npy` path. -/
structure FS where
  pickleLoad : String → List (String × Nat)
  npLoad : String → NpyArray

/-- Modelled from the spec: one utterance processed by `stack_frame` of
`utils.io.inputs.frame_stacking` (a module of this repository that is not
under `src/`). Frame stacking/skipping is "preprocessing that concatenates
and subsamples consecutive feature frames": each output frame is the
concatenation of `num_stack` consecutive input frames, and successive
output frames start `num_skip` input frames apart. The first argument is
recursion fuel, instantiated with the utterance length. -/
def stackUtt (num_stack num_skip : Nat) : Nat → NpyArray → NpyArray
  | 0, _ => []
  | _ + 1, [] => []
  | fuel + 1, f :: rest =>
      ((f :: rest).take num_stack).flatten ::
        stackUtt num_stack num_skip fuel ((f :: rest).drop num_skip)

/-- Modelled from the spec: `stack_frame` applied to the whole dataset,
utterance by utterance (the path and frame-number arguments of the Python
function only drive its progress bar and per-utterance lengths). -/
def stack_frame (input_list : List NpyArray) (num_stack num_skip : Nat) :
    List NpyArray :=
  input_list.map (fun u => stackUtt num_stack num_skip u.length u)

/-- Corpus root for input features (`input_path` before joining `data_type`). -/
def timitInputRoot : String :=
  "/n/sd8/inaguma/corpus/timit/dataset/inputs/htk/speaker"

/-- Corpus root for CTC labels. -/
def timitCtcLabelRoot : String :=
  "/n/sd8/inaguma/corpus/timit/dataset/labels/ctc"

/-- Corpus root for attention labels. -/
def timitAttLabelRoot : String :=
  "/n/sd8/inaguma/corpus/timit/dataset/labels/attention"

/-- The key comparison of `sorted(self.frame_num_dict.items(),
key=lambda x: x[axis])` with `axis = 1 if sort_utt else 0`: compare frame
numbers when `sort_utt`, utterance names otherwise. -/
def frameNumSortKeyLe (sort_utt : Bool) (a b : String × Nat) : Bool :=
  if sort_utt then decide (a.2 ≤ b.2) else pyStrLe a.1 b.1

/-- The state of a constructed `Dataset` object: every attribute
`Dataset.__init__` sets, plus the constructor local
`frame_num_tuple_sorted` (kept so the sort order can be stated). -/
structure DatasetState where
  data_type : String
  label_type : String
  batch_size : Int
  eos_index : Int
  max_epoch : Option Int
  splice : Int
  num_stack : Nat
  num_skip : Nat
  shuffle : Bool
  sort_utt : Bool
  sort_stop_epoch : Option Int
  progressbar : Bool
  ctc_padded_value : Int
  att_padded_value : Int
  frame_num_dict : List (String × Nat)
  frame_num_tuple_sorted : List (String × Nat)
  input_paths : List String
  att_label_paths : List String
  ctc_label_paths : List String
  input_list : List NpyArray
  att_label_list : List NpyArray
  ctc_label_list : List NpyArray
  rest : List Nat

/-- Body of `Dataset.__init__` after the two validation checks: load the
frame number dictionary, sort the `(name, frame_num)` items by name or by
frame number according to `sort_utt`, build the three path arrays, load
every array eagerly (the loop over `range(len(self.input_paths))`), stack
frames on the inputs, and initialise `rest`. -/
def Dataset.initBody (fs : FS) (data_type label_type : String)
    (batch_size eos_index : Int) (max_epoch : Option Int) (splice : Int)
    (num_stack num_skip : Nat) (shuffle sort_utt : Bool)
    (sort_stop_epoch : Option Int) (progressbar : Bool) : DatasetState :=
    let input_path := pathJoin timitInputRoot data_type
    let ctc_label_path := pathJoin (pathJoin timitCtcLabelRoot label_type) data_type
    let att_label_path := pathJoin (pathJoin timitAttLabelRoot label_type) data_type
    let frame_num_dict := fs.pickleLoad (pathJoin input_path "frame_num.pickle")
    let frame_num_tuple_sorted := pySorted (frameNumSortKeyLe sort_utt) frame_num_dict
    let input_paths := frame_num_tuple_sorted.map
      (fun p => pathJoin input_path (p.1 ++ ".npy"))
    let att_label_paths := frame_num_tuple_sorted.map
      (fun p => pathJoin att_label_path (p.1 ++ ".npy"))
    let ctc_label_paths := frame_num_tuple_sorted.map
      (fun p => pathJoin ctc_label_path (p.1 ++ ".npy"))
    let input_list := (List.range input_paths.length).map
      (fun i => fs.npLoad (input_paths.getD i ""))
    let att_label_list := (List.range input_paths.length).map
      (fun i => fs.npLoad (att_label_paths.getD i ""))
    let ctc_label_list := (List.range input_paths.length).map
      (fun i => fs.npLoad (ctc_label_paths.getD i ""))
    { data_type := data_type,
      label_type := label_type,
      batch_size := batch_size,
      eos_index := eos_index,
      max_epoch := max_epoch,
      splice := splice,
      num_stack := num_stack,
      num_skip := num_skip,
      shuffle := shuffle,
      sort_utt := sort_utt,
      sort_stop_epoch := sort_stop_epoch,
      progressbar := progressbar,
      ctc_padded_value := -1,
      att_padded_value := eos_index,
      frame_num_dict := frame_num_dict,
      frame_num_tuple_sorted := frame_num_tuple_sorted,
      input_paths := input_paths,
      att_label_paths := att_label_paths,
      ctc_label_paths := ctc_label_paths,
      input_list := stack_frame input_list num_stack num_skip,
      att_label_list := att_label_list,
      ctc_label_list := ctc_label_list,
      rest := List.range input_paths.length }

/-- `Dataset.__init__`: the two `TypeError` validation checks on
`data_type` and `label_type` come first; only when both pass is any
attribute set or any file read (`Dataset.initBody`). -/
def Dataset.init (fs : FS) (data_type label_type : String)
    (batch_size eos_index : Int) (max_epoch : Option Int) (splice : Int)
    (num_stack num_skip : Nat) (shuffle sort_utt : Bool)
    (sort_stop_epoch : Option Int) (progressbar : Bool) :
    Except PyError DatasetState :=
  if data_type ∉ (["train", "dev", "test"] : List String) then
    Except.error (PyError.typeError
      "data_type must be \"train\" or \"dev\" or \"test\".")
  else if label_type ∉ (["phone39", "phone48", "phone61", "character",
      "character_capital_divide"] : List String) then
    Except.error (PyError.typeError
      ("label_type must be \"phone39\" or \"phone48\" or \"phone61\" or " ++
       "\"character\" or \"character_capital_divide\"."))
  else
    Except.ok (Dataset.initBody fs data_type label_type batch_size eos_index
      max_epoch splice num_stack num_skip shuffle sort_utt sort_stop_epoch
      progressbar)

/-- A concrete file system used to instantiate the dataset theorems: two
utterances whose dictionary order (`utt_a` before `utt_b`) disagrees with
their frame-count order (5 frames before 1 frame). -/
def fsC1 : FS where
  pickleLoad := fun _ => [("utt_a", 5), ("utt_b", 1)]
  npLoad := fun p => [[(p.length : ℚ)]]

/-- A second concrete file system (an empty corpus), used to show that a
failed validation never touches the file system. -/
def fsC2 : FS where
  pickleLoad := fun _ => []
  npLoad := fun _ => []

/-! ### AttentionBase (`attention_seq2seq_base.py`): gradient clipping -/

/-- A gradient tensor after `AttentionBase._clip_gradients`: the graph
node `tf.clip_by_norm(grad, clip_norm=...)` or
`tf.clip_by_value(grad, clip_value_min=..., clip_value_max=...)` applied
to the original gradient `grad`. -/
inductive ClippedGrad (γ : Type) where
  | clipByNorm (grad : γ) (clip_norm : ℚ)
  | clipByValue (grad : γ) (clip_value_min clip_value_max : ℚ)
deriving DecidableEq

/-- The original gradient a clipped gradient was built from. -/
def ClippedGrad.rawGrad {γ : Type} : ClippedGrad γ → γ
  | ClippedGrad.clipByNorm g _ => g
  | ClippedGrad.clipByValue g _ _ => g

/-- The `for grad, var in grads_and_vars` loop of `_clip_gradients` in
the `_clip_norm` branch: appends `(tf.clip_by_norm(grad,
clip_norm=self.clip_grad), var)` for every pair whose gradient is not
`None`. -/
def clipGradientsNormLoop {γ ν : Type} (clip_grad : ℚ) :
    List (Option γ × ν) → List (ClippedGrad γ × ν)
  | [] => []
  | (some grad, var) :: rest =>
      (ClippedGrad.clipByNorm grad clip_grad, var) ::
        clipGradientsNormLoop clip_grad rest
  | (none, _) :: rest => clipGradientsNormLoop clip_grad rest

/-- The loop of `_clip_gradients` in the other branch: appends
`(tf.clip_by_value(grad, clip_value_min=-self.clip_grad,
clip_value_max=self.clip_grad), var)` for every pair whose gradient is
not `None`. -/
def clipGradientsValueLoop {γ ν : Type} (clip_grad : ℚ) :
    List (Option γ × ν) → List (ClippedGrad γ × ν)
  | [] => []
  | (some grad, var) :: rest =>
      (ClippedGrad.clipByValue grad (-clip_grad) clip_grad, var) ::
        clipGradientsValueLoop clip_grad rest
  | (none, _) :: rest => clipGradientsValueLoop clip_grad rest

/-- `AttentionBase._clip_gradients(grads_and_vars, _clip_norm)`, with
`self.clip_grad` (known non-`None` at the call site in `train`) passed
explicitly. Gradient tensors are abstract (`γ`), variables too (`ν`). -/
def AttentionBase._clip_gradients {γ ν : Type} (clip_grad : ℚ)
    (grads_and_vars : List (Option γ × ν)) (clip_norm : Bool) :
    List (ClippedGrad γ × ν) :=
  if clip_norm then clipGradientsNormLoop clip_grad grads_and_vars
  else clipGradientsValueLoop clip_grad grads_and_vars

/-- The training op returned by `AttentionBase.train`: either
`optimizer.apply_gradients` on the clipped pairs (when `self.clip_grad`
is not `None`) or `optimizer.minimize(loss)`. -/
inductive TrainOp (γ ν : Type) where
  | applyGradients (grads_and_vars : List (ClippedGrad γ × ν))
  | minimize
deriving DecidableEq

/-- `AttentionBase.train`, restricted to its gradient data flow: the
pairs returned by `self.optimizer.compute_gradients(loss)` are the
abstract input list; optimizer construction and the global step do not
touch the gradients and are omitted. -/
def AttentionBase.train {γ ν : Type} (clip_grad : Option ℚ)
    (grads_and_vars : List (Option γ × ν)) (clip_norm : Bool) :
    TrainOp γ ν :=
  match clip_grad with
  | some c => TrainOp.applyGradients
      (AttentionBase._clip_gradients c grads_and_vars clip_norm)
  | none => TrainOp.minimize

/-! ### AttentionBase: beam search wrapper -/

/-- Successor-selection functions passed to `BeamSearchDecoder`; the
source always passes `choose_top_k` from
`models.attention.decoders.beam_search.util`. -/
inductive SuccessorsFn where
  | choose_top_k
deriving DecidableEq

/-- The value returned by `AttentionBase._beam_search_decoder_wrapper`:
the decoder unchanged (greedy decoding), or a `BeamSearchDecoder`
recording the constructor arguments used at the call site. -/
inductive WrappedDecoder (δ : Type) where
  | plain (decoder : δ)
  | beamSearch (decoder : δ) (beam_width : Int) (vocab_size : Int)
      (eos_index : Int) (length_penalty_weight : ℚ)
      (choose_successors_fn : SuccessorsFn)
deriving DecidableEq

/-- `AttentionBase._beam_search_decoder_wrapper`, with the attributes it
reads (`self.num_classes`, `self.eos_index`) passed explicitly; the
result pairs the value written to `self.use_beam_search` with the
returned decoder. -/
def AttentionBase._beam_search_decoder_wrapper {δ : Type}
    (num_classes eos_index : Int) (decoder : δ) (beam_width : Option Int)
    (length_penalty_weight : ℚ) : Bool × WrappedDecoder δ :=
  match beam_width with
  | none => (false, WrappedDecoder.plain decoder)
  | some w =>
      if w ≤ 1 then (false, WrappedDecoder.plain decoder)
      else (true, WrappedDecoder.beamSearch decoder w num_classes eos_index
        length_penalty_weight SuccessorsFn.choose_top_k)

/-! ### AttentionBase: label error rate -/

/-- Levenshtein edit distance between two token sequences by fueled
structural recursion; fuel `s.length + t.length` always suffices, since
every recursive call removes at least one element, so the fuel-0 case is
reached only with both lists empty (where it correctly returns 0). -/
def levFuel {σ : Type} [DecidableEq σ] : Nat → List σ → List σ → Nat
  | 0, s, t => s.length + t.length
  | _ + 1, [], t => t.length
  | _ + 1, a :: as, [] => (a :: as).length
  | fuel + 1, a :: as, b :: bs =>
      if a = b then levFuel fuel as bs
      else 1 + min (levFuel fuel as (b :: bs))
        (min (levFuel fuel (a :: as) bs) (levFuel fuel as bs))

/-- Levenshtein edit distance. -/
def lev {σ : Type} [DecidableEq σ] (s t : List σ) : Nat :=
  levFuel (s.length + t.length) s t

/-- `tf.edit_distance(hypothesis, truth, normalize=...)` on a batch of
dense token sequences: per batch element, the edit distance from the
hypothesis to the truth, divided by the truth length when normalizing. -/
def tf_edit_distance {σ : Type} [DecidableEq σ]
    (hypothesis truth : List (List σ)) (normalize : Bool) : List ℚ :=
  (hypothesis.zip truth).map (fun ht =>
    if normalize then (lev ht.1 ht.2 : ℚ) / (ht.2.length : ℚ)
    else (lev ht.1 ht.2 : ℚ))

/-- `tf.reduce_mean` of a vector. -/
def tf_reduce_mean (xs : List ℚ) : ℚ := xs.sum / (xs.length : ℚ)

/-- `AttentionBase.compute_ler`:
`tf.reduce_mean(tf.edit_distance(labels_pred, labels_true,
normalize=True))`, with the two sparse label tensors modelled as batches
of dense token sequences. -/
def AttentionBase.compute_ler {σ : Type} [DecidableEq σ]
    (labels_true labels_pred : List (List σ)) : ℚ :=
  tf_reduce_mean (tf_edit_distance labels_pred labels_true true)

/-! ### AttentionBase: loss -/

/-- `tf.nn.l2_loss`: half the sum of squares of a variable's entries. -/
def l2_loss (v : List ℚ) : ℚ := (v.map (fun x => x * x)).sum / 2

/-- The weight-decay loop of `compute_loss`: `weight_sum = 0; for var in
tf.trainable_variables(): if 'bias' not in var.name.lower():
weight_sum += tf.nn.l2_loss(var)`. A trainable variable is modelled as a
`(name, entries)` pair. -/
def weightSumLoop (tvars : List (String × List ℚ)) : ℚ :=
  tvars.foldl (fun acc v =>
    if pyInStr "bias" (pyLower v.1) then acc else acc + l2_loss v.2) 0

/-- `tf.sequence_mask(lengths, maxlen, dtype=tf.float32)`:
`mask[i][t] = 1` iff `t < lengths[i]`. -/
def tf_sequence_mask (lengths : List Int) (maxlen : Nat) : List (List ℚ) :=
  lengths.map (fun len => (List.range maxlen).map
    (fun t => if (t : Int) < len then 1 else 0))

/-- `tf.contrib.seq2seq.sequence_loss(logits, targets, weights,
average_across_timesteps=True, average_across_batch=True,
softmax_loss_function=None)`: the weight-masked sum of the per-step cross
entropies divided by the total weight. The per-step sparse softmax cross
entropy of a logit row against a target id is the framework primitive,
kept abstract as `crossent`. -/
def tf_sequence_loss {L : Type} (crossent : L → Nat → ℚ)
    (logits : List (List L)) (targets : List (List Nat))
    (weights : List (List ℚ)) : ℚ :=
  ((logits.zip (targets.zip weights)).map (fun row =>
      ((row.1.zip (row.2.1.zip row.2.2)).map (fun t =>
        t.2.2 * crossent t.1 t.2.1)).sum)).sum /
    ((weights.map (fun w => w.sum)).sum)

/-- `AttentionBase.compute_loss`, restricted to its loss arithmetic: the
logits produced by `self._build` (not under src/) are an abstract input,
`addEpsilon` models `logits = logits + epsilon`, the `losses` collection
is the list of values passed to `tf.add_to_collection('losses', ·)` in
order, and the returned total loss is their `tf.add_n` sum. `max_time` is
`tf.shape(labels[:, 1:])[1]`, the row length of the label batch with the
first token dropped. -/
def AttentionBase.compute_loss {L : Type} (weight_decay : ℚ)
    (tvars : List (String × List ℚ)) (addEpsilon : L → L)
    (crossent : L → Nat → ℚ) (logits : List (List L))
    (labels : List (List Nat)) (labels_seq_len : List Int) : ℚ :=
  let logitsEps := logits.map (fun row => row.map addEpsilon)
  let losses₀ : List ℚ :=
    if weight_decay > 0 then [weightSumLoop tvars * weight_decay] else []
  let max_time := ((labels.map (fun r => r.drop 1)).headD []).length
  let loss_mask :=
    tf_sequence_mask (labels_seq_len.map (fun len => len - 1)) max_time
  let sequence_loss := tf_sequence_loss crossent logitsEps
    (labels.map (fun r => r.drop 1)) loss_mask
  (losses₀ ++ [sequence_loss]).sum

/-! ### AttentionBase: optimizer selection -/

/-- The `tf.train` optimizer classes appearing as values of
`OPTIMIZER_CLS_NAMES`. -/
inductive OptimizerCls where
  | adagrad
  | adadelta
  | adam
  | momentum
  | rmsprop
  | sgd
deriving DecidableEq

/-- `OPTIMIZER_CLS_NAMES`: the dictionary from lowercase optimizer names
to optimizer classes, in source order. -/
def OPTIMIZER_CLS_NAMES : List (String × OptimizerCls) :=
  [("adagrad", OptimizerCls.adagrad), ("adadelta", OptimizerCls.adadelta),
   ("adam", OptimizerCls.adam), ("momentum", OptimizerCls.momentum),
   ("rmsprop", OptimizerCls.rmsprop), ("sgd", OptimizerCls.sgd)]

/-- An optimizer instance: the selected class applied to its constructor
arguments (`learning_rate`, and `momentum` for the momentum optimizer). -/
structure OptimizerInst where
  cls : OptimizerCls
  learning_rate : ℚ
  momentum : Option ℚ
deriving DecidableEq

/-- `AttentionBase.set_optimizer`: lowercase the name, raise `ValueError`
when it is not a key of `OPTIMIZER_CLS_NAMES`, and otherwise construct
the selected class with the learning rate (plus `momentum=0.9` for the
momentum optimizer). -/
def AttentionBase.set_optimizer (optimizer_name : String)
    (learning_rate : ℚ) : Except PyError OptimizerInst :=
  let name := pyLower optimizer_name
  match OPTIMIZER_CLS_NAMES.lookup name with
  | none => Except.error (PyError.valueError
      ("Optimizer name should be one of [adagrad, adadelta, adam, " ++
       "momentum, rmsprop, sgd], you provided " ++ name ++ "."))
  | some cls =>
      if name = "momentum" then
        Except.ok
          { cls := cls, learning_rate := learning_rate,
            momentum := some (9 / 10) }
      else
        Except.ok
          { cls := cls, learning_rate := learning_rate,
            momentum := none }

/-! ### Helper lemmas about the embedded primitives, and the claim theorems -/

theorem mem_insertOrd {α : Type} (le : α → α → Bool) (x : α) :
    ∀ (l : List α) (y : α), y ∈ insertOrd le x l → y = x ∨ y ∈ l
  | [], y, h => by
      simp only [insertOrd, List.mem_singleton] at h
      exact Or.inl h
  | z :: zs, y, h => by
      unfold insertOrd at h
      by_cases hz : le z x = true
      · rw [if_pos hz] at h
        rcases List.mem_cons.mp h with h' | h'
        · exact Or.inr (List.mem_cons.mpr (Or.inl h'))
        · rcases mem_insertOrd le x zs y h' with h'' | h''
          · exact Or.inl h''
          · exact Or.inr (List.mem_cons.mpr (Or.inr h''))
      · rw [if_neg hz] at h
        rcases List.mem_cons.mp h with h' | h'
        · exact Or.inl h'
        · exact Or.inr h'

theorem pairwise_insertOrd {α : Type} (le : α → α → Bool)
    (htrans : ∀ a b c, le a b = true → le b c = true → le a c = true)
    (htotal : ∀ a b, le a b = true ∨ le b a = true) (x : α) :
    ∀ l : List α, l.Pairwise (fun a b => le a b = true) →
      (insertOrd le x l).Pairwise (fun a b => le a b = true)
  | [], _ => by simp [insertOrd]
  | y :: ys, hl => by
      rw [List.pairwise_cons] at hl
      obtain ⟨hy, hys⟩ := hl
      unfold insertOrd
      by_cases hyx : le y x = true
      · rw [if_pos hyx]
        rw [List.pairwise_cons]
        refine ⟨fun z hz => ?_, pairwise_insertOrd le htrans htotal x ys hys⟩
        rcases mem_insertOrd le x ys z hz with rfl | hz'
        · exact hyx
        · exact hy z hz'
      · have hxy : le x y = true := (htotal x y).resolve_right hyx
        rw [if_neg hyx]
        rw [List.pairwise_cons]
        refine ⟨fun z hz => ?_, List.pairwise_cons.mpr ⟨hy, hys⟩⟩
        rcases List.mem_cons.mp hz with rfl | hz'
        · exact hxy
        · exact htrans x y z hxy (hy z hz')

theorem pairwise_pySorted {α : Type} (le : α → α → Bool)
    (htrans : ∀ a b c, le a b = true → le b c = true → le a c = true)
    (htotal : ∀ a b, le a b = true ∨ le b a = true) :
    ∀ l : List α, (pySorted le l).Pairwise (fun a b => le a b = true)
  | [] => by simp [pySorted]
  | x :: xs =>
      pairwise_insertOrd le htrans htotal x (pySorted le xs)
        (pairwise_pySorted le htrans htotal xs)

theorem charListLe_total :
    ∀ a b : List Char, charListLe a b = true ∨ charListLe b a = true
  | [], b => Or.inl (by cases b <;> rfl)
  | a :: as, [] => Or.inr rfl
  | a :: as, b :: bs => by
      by_cases hab : a = b
      · subst hab
        rcases charListLe_total as bs with h | h
        · exact Or.inl (by simpa [charListLe] using h)
        · exact Or.inr (by simpa [charListLe] using h)
      · rcases lt_or_gt_of_ne hab with h | h
        · exact Or.inl (by simp [charListLe, hab, h])
        · exact Or.inr (by simp [charListLe, Ne.symm hab, h])

theorem charListLe_trans :
    ∀ a b c : List Char, charListLe a b = true → charListLe b c = true →
      charListLe a c = true
  | [], b, c, _, _ => by cases c <;> rfl
  | a :: as, [], c, h1, _ => by simp [charListLe] at h1
  | a :: as, b :: bs, [], _, h2 => by simp [charListLe] at h2
  | a :: as, b :: bs, c :: cs, h1, h2 => by
      by_cases hab : a = b
      · subst hab
        by_cases hbc : a = c
        · subst hbc
          simp only [charListLe, if_pos rfl] at h1 h2 ⊢
          exact charListLe_trans as bs cs h1 h2
        · simpa [charListLe, hbc] using h2
      · by_cases hbc : b = c
        · subst hbc
          simpa [charListLe, hab] using h1
        · simp only [charListLe, if_neg hab, if_neg hbc,
            decide_eq_true_eq] at h1 h2
          have hac : a < c := lt_trans h1 h2
          simp [charListLe, ne_of_lt hac, hac]

theorem frameNumSortKeyLe_trans (su : Bool) (a b c : String × Nat)
    (h1 : frameNumSortKeyLe su a b = true)
    (h2 : frameNumSortKeyLe su b c = true) : frameNumSortKeyLe su a c = true := by
  cases su
  · exact charListLe_trans _ _ _ h1 h2
  · simp only [frameNumSortKeyLe, if_pos, decide_eq_true_eq] at h1 h2 ⊢
    exact le_trans h1 h2

theorem frameNumSortKeyLe_total (su : Bool) (a b : String × Nat) :
    frameNumSortKeyLe su a b = true ∨ frameNumSortKeyLe su b a = true := by
  cases su
  · exact charListLe_total _ _
  · simp only [frameNumSortKeyLe, if_pos, decide_eq_true_eq]
    exact le_total a.2 b.2

theorem range_map_getD {α β : Type} (f : α → β) (d : α) :
    ∀ l : List α,
      (List.range l.length).map (fun i => f (l.getD i d)) = l.map f
  | [] => rfl
  | a :: t => by
      rw [List.length_cons, List.range_succ_eq_map, List.map_cons,
        List.map_map, List.map_cons]
      refine congrArg₂ _ rfl ?_
      calc (List.range t.length).map ((fun i => f ((a :: t).getD i d)) ∘ Nat.succ)
          = (List.range t.length).map (fun i => f (t.getD i d)) := by
            refine List.map_congr_left (fun i _ => ?_)
            simp [Function.comp, List.getD_cons_succ]
        _ = t.map f := range_map_getD f d t

theorem getD_map_of_lt {α β : Type} (f : α → β) (d : α) (d' : β) :
    ∀ (l : List α) (i : Nat), i < l.length →
      (l.map f).getD i d' = f (l.getD i d)
  | [], i, h => absurd h (by simp)
  | a :: t, 0, _ => rfl
  | a :: t, i + 1, h =>
      getD_map_of_lt f d d' t i (Nat.lt_of_succ_lt_succ (by simpa using h))

theorem load_loop_eq {β : Type} (f : String → β) (l l2 : List String)
    (h : l2.length = l.length) :
    (List.range l2.length).map (fun i => f (l.getD i "")) = l.map f := by
  rw [h]
  exact range_map_getD f "" l

theorem init_ok_cases (fs : FS) (dt lt : String) (bs eos : Int)
    (me : Option Int) (sp : Int) (ns nk : Nat) (sh su : Bool)
    (sse : Option Int) (pb : Bool) (s : DatasetState)
    (h : Dataset.init fs dt lt bs eos me sp ns nk sh su sse pb = Except.ok s) :
    s = Dataset.initBody fs dt lt bs eos me sp ns nk sh su sse pb := by
  unfold Dataset.init at h
  split at h
  · cases h
  · split at h
    · cases h
    · exact (Except.ok.inj h).symm

theorem initBody_lists (fs : FS) (dt lt : String) (bs eos : Int)
    (me : Option Int) (sp : Int) (ns nk : Nat) (sh su : Bool)
    (sse : Option Int) (pb : Bool) :
    (Dataset.initBody fs dt lt bs eos me sp ns nk sh su sse pb).input_list =
      stack_frame
        ((Dataset.initBody fs dt lt bs eos me sp ns nk sh su sse
          pb).input_paths.map fs.npLoad) ns nk ∧
    (Dataset.initBody fs dt lt bs eos me sp ns nk sh su sse
        pb).att_label_list =
      (Dataset.initBody fs dt lt bs eos me sp ns nk sh su sse
        pb).att_label_paths.map fs.npLoad ∧
    (Dataset.initBody fs dt lt bs eos me sp ns nk sh su sse
        pb).ctc_label_list =
      (Dataset.initBody fs dt lt bs eos me sp ns nk sh su sse
        pb).ctc_label_paths.map fs.npLoad ∧
    (Dataset.initBody fs dt lt bs eos me sp ns nk sh su sse
        pb).att_label_paths.length =
      (Dataset.initBody fs dt lt bs eos me sp ns nk sh su sse
        pb).input_paths.length ∧
    (Dataset.initBody fs dt lt bs eos me sp ns nk sh su sse
        pb).ctc_label_paths.length =
      (Dataset.initBody fs dt lt bs eos me sp ns nk sh su sse
        pb).input_paths.length := by
  simp only [Dataset.initBody]
  refine ⟨?_, ?_, ?_, by simp, by simp⟩
  · exact congrArg (fun z => stack_frame z ns nk)
      (load_loop_eq fs.npLoad _ _ rfl)
  · exact load_loop_eq fs.npLoad _ _ (by simp)
  · exact load_loop_eq fs.npLoad _ _ (by simp)

/-- C1, counterexample: with `sort_utt = False` the constructor sorts the
frame-number items by utterance name (`axis = 0`), so with the file system
`fsC1` the resulting order of frame counts is `[5, 1]`, which is not
non-decreasing; the claim's "regardless of the sort_utt flag" is false. -/
theorem dataset_init_sort_counterexample :
    ∃ s, Dataset.init fsC1 "train" "phone39" 1 0 none 1 1 1 false false
        none false = Except.ok s ∧
      s.frame_num_tuple_sorted.map Prod.snd = [5, 1] ∧
      ¬ (s.frame_num_tuple_sorted.map Prod.snd).Pairwise (fun a b => a ≤ b) :=
  ⟨_, rfl, rfl, by decide⟩

/-- C1, amended: `Dataset.__init__` enumerates the input and label file
paths in the order of the sorted frame-number items; that order is by
non-decreasing frame count exactly when `sort_utt` is `True`, and by
utterance name (lexicographically) when `sort_utt` is `False`. -/
theorem dataset_init_sort_order (fs : FS) (dt lt : String) (bs eos : Int)
    (me : Option Int) (sp : Int) (ns nk : Nat) (sh su : Bool)
    (sse : Option Int) (pb : Bool) (s : DatasetState)
    (h : Dataset.init fs dt lt bs eos me sp ns nk sh su sse pb = Except.ok s) :
    s.input_paths = s.frame_num_tuple_sorted.map
        (fun p => pathJoin (pathJoin timitInputRoot dt) (p.1 ++ ".npy")) ∧
    s.att_label_paths = s.frame_num_tuple_sorted.map
        (fun p => pathJoin (pathJoin (pathJoin timitAttLabelRoot lt) dt)
          (p.1 ++ ".npy")) ∧
    s.ctc_label_paths = s.frame_num_tuple_sorted.map
        (fun p => pathJoin (pathJoin (pathJoin timitCtcLabelRoot lt) dt)
          (p.1 ++ ".npy")) ∧
    (su = true → s.frame_num_tuple_sorted.Pairwise (fun a b => a.2 ≤ b.2)) ∧
    (su = false →
      s.frame_num_tuple_sorted.Pairwise (fun a b => pyStrLe a.1 b.1 = true)) := by
  have hs := init_ok_cases fs dt lt bs eos me sp ns nk sh su sse pb s h
  subst hs
  refine ⟨rfl, rfl, rfl, ?_, ?_⟩
  · intro hsu
    subst hsu
    have hp := pairwise_pySorted (frameNumSortKeyLe true)
      (frameNumSortKeyLe_trans true) (frameNumSortKeyLe_total true)
      (fs.pickleLoad
        (pathJoin (pathJoin timitInputRoot dt) "frame_num.pickle"))
    exact hp.imp (fun hab => by simpa [frameNumSortKeyLe] using hab)
  · intro hsu
    subst hsu
    have hp := pairwise_pySorted (frameNumSortKeyLe false)
      (frameNumSortKeyLe_trans false) (frameNumSortKeyLe_total false)
      (fs.pickleLoad
        (pathJoin (pathJoin timitInputRoot dt) "frame_num.pickle"))
    exact hp.imp (fun hab => by simpa [frameNumSortKeyLe, pyStrLe] using hab)

/-- C1, witness: on `fsC1` with `sort_utt = True` the sorted items are
ordered by non-decreasing frame count. -/
theorem dataset_init_sort_order_witness :
    ∃ s, Dataset.init fsC1 "train" "phone39" 1 0 none 1 1 1 false true
        none false = Except.ok s ∧
      s.frame_num_tuple_sorted.Pairwise (fun a b => a.2 ≤ b.2) :=
  ⟨_, rfl,
    (dataset_init_sort_order fsC1 "train" "phone39" 1 0 none 1 1 1 false true
      none false _ rfl).2.2.2.1 rfl⟩

/-- C6: after construction the three loaded lists have the same length as
`input_paths`, and the `i`-th entry of each comes from loading the `i`-th
path (`np.load` of `att_label_paths[i]` and `ctc_label_paths[i]`; for the
inputs, the load of `input_paths[i]` subsequently frame-stacked). -/
theorem dataset_init_loads (fs : FS) (dt lt : String) (bs eos : Int)
    (me : Option Int) (sp : Int) (ns nk : Nat) (sh su : Bool)
    (sse : Option Int) (pb : Bool) (s : DatasetState)
    (h : Dataset.init fs dt lt bs eos me sp ns nk sh su sse pb = Except.ok s) :
    s.input_list.length = s.input_paths.length ∧
    s.att_label_list.length = s.input_paths.length ∧
    s.ctc_label_list.length = s.input_paths.length ∧
    ∀ i, i < s.input_paths.length →
      s.input_list.getD i [] =
        stackUtt ns nk (fs.npLoad (s.input_paths.getD i "")).length
          (fs.npLoad (s.input_paths.getD i "")) ∧
      s.att_label_list.getD i [] = fs.npLoad (s.att_label_paths.getD i "") ∧
      s.ctc_label_list.getD i [] = fs.npLoad (s.ctc_label_paths.getD i "") := by
  have hs := init_ok_cases fs dt lt bs eos me sp ns nk sh su sse pb s h
  have hb := initBody_lists fs dt lt bs eos me sp ns nk sh su sse pb
  rw [← hs] at hb
  obtain ⟨hin, hatt, hctc, hla, hlc⟩ := hb
  refine ⟨by rw [hin]; simp [stack_frame], by rw [hatt]; simp [hla],
    by rw [hctc]; simp [hlc], ?_⟩
  intro i hi
  refine ⟨?_, ?_, ?_⟩
  · rw [hin]
    simp only [stack_frame, List.map_map]
    exact getD_map_of_lt _ "" [] s.input_paths i hi
  · rw [hatt]
    exact getD_map_of_lt fs.npLoad "" [] s.att_label_paths i
      (by rw [hla]; exact hi)
  · rw [hctc]
    exact getD_map_of_lt fs.npLoad "" [] s.ctc_label_paths i
      (by rw [hlc]; exact hi)

/-- C6, witness: the concrete dataset built from `fsC1` satisfies the
loading correspondence at index 0. -/
theorem dataset_init_loads_witness :
    ∃ s, Dataset.init fsC1 "train" "phone39" 1 0 none 1 1 1 false false
        none false = Except.ok s ∧
      s.input_list.length = s.input_paths.length ∧
      s.att_label_list.getD 0 [] = fsC1.npLoad (s.att_label_paths.getD 0 "") :=
  ⟨_, rfl,
    (dataset_init_loads fsC1 "train" "phone39" 1 0 none 1 1 1 false false
      none false _ rfl).1,
    ((dataset_init_loads fsC1 "train" "phone39" 1 0 none 1 1 1 false false
      none false _ rfl).2.2.2 0 (by decide)).2.1⟩

/-- C7: frame stacking is applied to the input features only:
`input_list` is the `stack_frame` image of the loaded input arrays, while
`att_label_list` and `ctc_label_list` are exactly the arrays loaded from
their paths. -/
theorem dataset_init_stacks_inputs_only (fs : FS) (dt lt : String)
    (bs eos : Int) (me : Option Int) (sp : Int) (ns nk : Nat) (sh su : Bool)
    (sse : Option Int) (pb : Bool) (s : DatasetState)
    (h : Dataset.init fs dt lt bs eos me sp ns nk sh su sse pb = Except.ok s) :
    s.input_list = stack_frame (s.input_paths.map fs.npLoad) ns nk ∧
    s.att_label_list = s.att_label_paths.map fs.npLoad ∧
    s.ctc_label_list = s.ctc_label_paths.map fs.npLoad := by
  have hs := init_ok_cases fs dt lt bs eos me sp ns nk sh su sse pb s h
  have hb := initBody_lists fs dt lt bs eos me sp ns nk sh su sse pb
  rw [← hs] at hb
  exact ⟨hb.1, hb.2.1, hb.2.2.1⟩

/-- C7, witness: on the concrete dataset built from `fsC1`, the label
lists are exactly the loaded arrays and the inputs are the stacked loads. -/
theorem dataset_init_stacks_inputs_only_witness :
    ∃ s, Dataset.init fsC1 "train" "phone39" 1 0 none 1 1 1 false false
        none false = Except.ok s ∧
      s.input_list = stack_frame (s.input_paths.map fsC1.npLoad) 1 1 ∧
      s.att_label_list = s.att_label_paths.map fsC1.npLoad ∧
      s.ctc_label_list = s.ctc_label_paths.map fsC1.npLoad :=
  ⟨_, rfl,
    dataset_init_stacks_inputs_only fsC1 "train" "phone39" 1 0 none 1 1 1
      false false none false _ rfl⟩

/-- C8: `Dataset.__init__` raises `TypeError` exactly when `data_type` or
`label_type` is invalid; the error does not depend on the file system (the
checks precede every read), and every raised error is a `TypeError`. -/
theorem dataset_init_validates (fs fs2 : FS) (dt lt : String) (bs eos : Int)
    (me : Option Int) (sp : Int) (ns nk : Nat) (sh su : Bool)
    (sse : Option Int) (pb : Bool) :
    ((∃ e, Dataset.init fs dt lt bs eos me sp ns nk sh su sse pb =
        Except.error e) ↔
      (dt ∉ (["train", "dev", "test"] : List String) ∨
       lt ∉ (["phone39", "phone48", "phone61", "character",
         "character_capital_divide"] : List String))) ∧
    ∀ e, Dataset.init fs dt lt bs eos me sp ns nk sh su sse pb =
        Except.error e →
      Dataset.init fs2 dt lt bs eos me sp ns nk sh su sse pb =
        Except.error e ∧
      ∃ m, e = PyError.typeError m := by
  unfold Dataset.init
  by_cases h1 : dt ∉ (["train", "dev", "test"] : List String)
  · rw [if_pos h1, if_pos h1]
    exact ⟨⟨fun _ => Or.inl h1, fun _ => ⟨_, rfl⟩⟩,
      fun e he => ⟨he, ⟨_, (Except.error.inj he).symm⟩⟩⟩
  · rw [if_neg h1, if_neg h1]
    by_cases h2 : lt ∉ (["phone39", "phone48", "phone61", "character",
        "character_capital_divide"] : List String)
    · rw [if_pos h2, if_pos h2]
      exact ⟨⟨fun _ => Or.inr h2, fun _ => ⟨_, rfl⟩⟩,
        fun e he => ⟨he, ⟨_, (Except.error.inj he).symm⟩⟩⟩
    · rw [if_neg h2, if_neg h2]
      refine ⟨⟨?_, fun hor => absurd (hor.resolve_left h1) h2⟩,
        fun e he => Except.noConfusion he⟩
      rintro ⟨e, he⟩
      exact Except.noConfusion he

/-- C8, witness: an invalid `data_type` yields the same `TypeError` under
two different file systems. -/
theorem dataset_init_validates_witness :
    Dataset.init fsC1 "bad" "phone39" 1 0 none 1 1 1 false false none
      false =
      Except.error (PyError.typeError
        "data_type must be \"train\" or \"dev\" or \"test\".") ∧
    Dataset.init fsC2 "bad" "phone39" 1 0 none 1 1 1 false false none
      false =
      Except.error (PyError.typeError
        "data_type must be \"train\" or \"dev\" or \"test\".") :=
  ⟨rfl,
    ((dataset_init_validates fsC1 fsC2 "bad" "phone39" 1 0 none 1 1 1 false
      false none false).2 _ rfl).1⟩

theorem clipGradientsNormLoop_eq_filterMap {γ ν : Type} (c : ℚ) :
    ∀ l : List (Option γ × ν), clipGradientsNormLoop c l =
      l.filterMap (fun gv => gv.1.map
        (fun g => (ClippedGrad.clipByNorm g c, gv.2)))
  | [] => rfl
  | (some g, v) :: rest => by
      simp [clipGradientsNormLoop, List.filterMap_cons,
        clipGradientsNormLoop_eq_filterMap c rest]
  | (none, v) :: rest => by
      simp [clipGradientsNormLoop, List.filterMap_cons,
        clipGradientsNormLoop_eq_filterMap c rest]

theorem clipGradientsValueLoop_eq_filterMap {γ ν : Type} (c : ℚ) :
    ∀ l : List (Option γ × ν), clipGradientsValueLoop c l =
      l.filterMap (fun gv => gv.1.map
        (fun g => (ClippedGrad.clipByValue g (-c) c, gv.2)))
  | [] => rfl
  | (some g, v) :: rest => by
      simp [clipGradientsValueLoop, List.filterMap_cons,
        clipGradientsValueLoop_eq_filterMap c rest]
  | (none, v) :: rest => by
      simp [clipGradientsValueLoop, List.filterMap_cons,
        clipGradientsValueLoop_eq_filterMap c rest]

theorem clip_filterMap_spec {γ ν : Type} (F : γ → ClippedGrad γ)
    (hF : ∀ g, (F g).rawGrad = g) :
    ∀ l : List (Option γ × ν),
      ((l.filterMap (fun gv => gv.1.map (fun g => (F g, gv.2)))).map
          Prod.snd =
        (l.filter (fun gv => gv.1.isSome)).map Prod.snd) ∧
      ((l.filterMap (fun gv => gv.1.map (fun g => (F g, gv.2)))).map
          (fun p => p.1.rawGrad) =
        l.filterMap Prod.fst)
  | [] => ⟨rfl, rfl⟩
  | (some g, v) :: rest => by
      have ih := clip_filterMap_spec F hF rest
      refine ⟨?_, ?_⟩ <;>
        simp [List.filterMap_cons, List.filter_cons, ih.1, ih.2, hF]
  | (none, v) :: rest => by
      have ih := clip_filterMap_spec F hF rest
      refine ⟨?_, ?_⟩ <;>
        simp [List.filterMap_cons, List.filter_cons, ih.1, ih.2]

/-- C2, counterexample: calling `train` with `self.clip_grad = 5` but the
default `clip_norm=False` applies `tf.clip_by_value`, not
`tf.clip_by_norm`, so the claim's unconditional "clipped by
tf.clip_by_norm" is false. -/
theorem train_clip_by_norm_counterexample :
    AttentionBase.train (some 5) [((some (1 : ℚ)), (0 : ℕ))] false =
      TrainOp.applyGradients
        [(ClippedGrad.clipByValue (1 : ℚ) (-5) 5, (0 : ℕ))] ∧
    ∃ l, AttentionBase.train (some 5) [((some (1 : ℚ)), (0 : ℕ))] false =
        TrainOp.applyGradients l ∧
      ¬ ∀ gv ∈ l, ∃ g, gv.1 = ClippedGrad.clipByNorm g 5 :=
  ⟨rfl, _, rfl, fun hall => by
    rcases hall (ClippedGrad.clipByValue (1 : ℚ) (-5) 5, (0 : ℕ))
      (by decide) with ⟨g, hg⟩
    cases hg⟩

/-- C2 (amended): when `self.clip_grad` is not `None`, `train` applies
the computed gradients with every non-`None` gradient clipped — by
`tf.clip_by_norm` with norm bound `self.clip_grad` when train's
`clip_norm` argument is `True`, and by `tf.clip_by_value` to
`[-self.clip_grad, self.clip_grad]` when it is `False`; when
`self.clip_grad` is `None` it calls `optimizer.minimize`. -/
theorem train_clipping (γ ν : Type) (c : ℚ) (grads : List (Option γ × ν))
    (b : Bool) :
    AttentionBase.train (some c) grads true =
      TrainOp.applyGradients (grads.filterMap (fun gv => gv.1.map
        (fun g => (ClippedGrad.clipByNorm g c, gv.2)))) ∧
    AttentionBase.train (some c) grads false =
      TrainOp.applyGradients (grads.filterMap (fun gv => gv.1.map
        (fun g => (ClippedGrad.clipByValue g (-c) c, gv.2)))) ∧
    AttentionBase.train none grads b = TrainOp.minimize :=
  ⟨congrArg TrainOp.applyGradients
      (by simpa [AttentionBase._clip_gradients] using
        clipGradientsNormLoop_eq_filterMap c grads),
   congrArg TrainOp.applyGradients
      (by simpa [AttentionBase._clip_gradients] using
        clipGradientsValueLoop_eq_filterMap c grads),
   rfl⟩

/-- C10: `_clip_gradients` returns exactly the pairs whose gradient is
not `None`, in their original relative order: the variable components are
those of the non-`None` pairs unchanged, the gradient payloads are the
non-`None` gradients themselves, and the length is the number of
non-`None` gradients — for either value of `_clip_norm`. -/
theorem clip_gradients_drops_none (γ ν : Type) (c : ℚ) (b : Bool)
    (gvs : List (Option γ × ν)) :
    (AttentionBase._clip_gradients c gvs b).map Prod.snd =
      (gvs.filter (fun gv => gv.1.isSome)).map Prod.snd ∧
    (AttentionBase._clip_gradients c gvs b).map (fun p => p.1.rawGrad) =
      gvs.filterMap Prod.fst ∧
    (AttentionBase._clip_gradients c gvs b).length =
      (gvs.filter (fun gv => gv.1.isSome)).length := by
  have hmain :
      (AttentionBase._clip_gradients c gvs b).map Prod.snd =
        (gvs.filter (fun gv => gv.1.isSome)).map Prod.snd ∧
      (AttentionBase._clip_gradients c gvs b).map (fun p => p.1.rawGrad) =
        gvs.filterMap Prod.fst := by
    cases b
    · rw [show AttentionBase._clip_gradients c gvs false =
          clipGradientsValueLoop c gvs from rfl,
        clipGradientsValueLoop_eq_filterMap c gvs]
      exact clip_filterMap_spec
        (fun g => ClippedGrad.clipByValue g (-c) c) (fun g => rfl) gvs
    · rw [show AttentionBase._clip_gradients c gvs true =
          clipGradientsNormLoop c gvs from rfl,
        clipGradientsNormLoop_eq_filterMap c gvs]
      exact clip_filterMap_spec
        (fun g => ClippedGrad.clipByNorm g c) (fun g => rfl) gvs
  refine ⟨hmain.1, hmain.2, ?_⟩
  have := congrArg List.length hmain.1
  simpa using this

/-- C3: the wrapper returns the decoder unchanged with
`use_beam_search = False` when `beam_width` is `None` or at most 1, and
otherwise returns `use_beam_search = True` together with a
`BeamSearchDecoder` built with `beam_width`, the model's vocabulary size
(`num_classes`), its `eos_index`, the given `length_penalty_weight`, and
`choose_top_k` as successor function. -/
theorem beam_search_decoder_wrapper_spec (δ : Type) (nc eos : Int) (d : δ)
    (bw : Option Int) (lpw : ℚ) :
    ((bw = none ∨ ∃ w, bw = some w ∧ w ≤ 1) →
      AttentionBase._beam_search_decoder_wrapper nc eos d bw lpw =
        (false, WrappedDecoder.plain d)) ∧
    (∀ w, bw = some w → 1 < w →
      AttentionBase._beam_search_decoder_wrapper nc eos d bw lpw =
        (true, WrappedDecoder.beamSearch d w nc eos lpw
          SuccessorsFn.choose_top_k)) := by
  constructor
  · rintro (rfl | ⟨w, rfl, hw⟩)
    · rfl
    · simp [AttentionBase._beam_search_decoder_wrapper, hw]
  · rintro w rfl hw
    simp [AttentionBase._beam_search_decoder_wrapper, not_le.mpr hw]

/-- C3, witness: beam width 4 turns beam search on with the recorded
arguments; beam width 1 leaves the decoder unchanged. -/
theorem beam_search_decoder_wrapper_witness :
    AttentionBase._beam_search_decoder_wrapper 10 3 (0 : ℤ) (some 4)
        (3 / 5) =
      (true, WrappedDecoder.beamSearch 0 4 10 3 (3 / 5)
        SuccessorsFn.choose_top_k) ∧
    AttentionBase._beam_search_decoder_wrapper 10 3 (0 : ℤ) (some 1)
        (3 / 5) =
      (false, WrappedDecoder.plain 0) :=
  ⟨(beam_search_decoder_wrapper_spec ℤ 10 3 0 (some 4) (3 / 5)).2 4 rfl
      (by norm_num),
   (beam_search_decoder_wrapper_spec ℤ 10 3 0 (some 1) (3 / 5)).1
      (Or.inr ⟨1, rfl, le_refl 1⟩)⟩

/-- C4: `compute_ler` is the mean over the batch of the edit distance
between `labels_pred` and `labels_true`, each normalized by the true
label length. -/
theorem compute_ler_spec (σ : Type) [DecidableEq σ]
    (labels_true labels_pred : List (List σ))
    (h : labels_pred.length = labels_true.length) :
    AttentionBase.compute_ler labels_true labels_pred =
      ((labels_pred.zip labels_true).map
        (fun pt => (lev pt.1 pt.2 : ℚ) / (pt.2.length : ℚ))).sum /
        (labels_true.length : ℚ) := by
  unfold AttentionBase.compute_ler tf_reduce_mean tf_edit_distance
  simp [List.length_zip, h]

/-- C4, witness: one-element batch with true labels `[1, 2]` and
predicted labels `[1, 3]`. -/
theorem compute_ler_witness :
    AttentionBase.compute_ler ([[1, 2]] : List (List ℕ)) [[1, 3]] =
      (([[1, 3]].zip ([[1, 2]] : List (List ℕ))).map
        (fun pt => (lev pt.1 pt.2 : ℚ) / (pt.2.length : ℚ))).sum /
        (([[1, 2]] : List (List ℕ)).length : ℚ) :=
  compute_ler_spec ℕ [[1, 2]] [[1, 3]] rfl

theorem headD_map_drop_length {α : Type} :
    ∀ labels : List (List α),
      ((labels.map (fun r => r.drop 1)).headD []).length =
        (labels.headD []).length - 1
  | [] => rfl
  | r :: rest => by simp

theorem foldl_if_add {α : Type} (p : α → Bool) (f : α → ℚ) :
    ∀ (l : List α) (a : ℚ),
      l.foldl (fun acc v => if p v then acc else acc + f v) a =
        a + ((l.filter (fun v => !p v)).map f).sum
  | [], a => by simp
  | v :: rest, a => by
      by_cases hv : p v = true
      · simp [List.foldl_cons, hv, foldl_if_add p f rest a,
          List.filter_cons]
      · have hv' : p v = false := by simpa using hv
        simp [List.foldl_cons, hv', foldl_if_add p f rest (a + f v),
          List.filter_cons, add_assoc]

theorem weightSumLoop_eq_filter (tvars : List (String × List ℚ)) :
    weightSumLoop tvars =
      ((tvars.filter (fun v => !pyInStr "bias" (pyLower v.1))).map
        (fun v => l2_loss v.2)).sum := by
  unfold weightSumLoop
  rw [foldl_if_add (fun v => pyInStr "bias" (pyLower v.1))
    (fun v => l2_loss v.2) tvars 0]
  rw [zero_add]

/-- C5: the total loss returned by `compute_loss` is the cross-entropy
sequence loss — computed on the labels with the first token dropped,
masked by `tf.sequence_mask` built from `labels_seq_len - 1` with maximum
length the time dimension of `labels[:, 1:]` — plus, exactly when
`self.weight_decay > 0`, the L2 losses of all trainable variables whose
lowercased name does not contain `'bias'`, scaled by `weight_decay`. -/
theorem compute_loss_spec (L : Type) (wd : ℚ)
    (tvars : List (String × List ℚ)) (eps : L → L) (ce : L → Nat → ℚ)
    (logits : List (List L)) (labels : List (List Nat)) (lens : List Int) :
    AttentionBase.compute_loss wd tvars eps ce logits labels lens =
      tf_sequence_loss ce (logits.map (fun row => row.map eps))
        (labels.map (fun r => r.drop 1))
        (tf_sequence_mask (lens.map (fun len => len - 1))
          ((labels.headD []).length - 1)) +
      (if 0 < wd then
        wd * ((tvars.filter (fun v => !pyInStr "bias" (pyLower v.1))).map
          (fun v => l2_loss v.2)).sum
       else 0) := by
  unfold AttentionBase.compute_loss
  rw [headD_map_drop_length labels]
  by_cases hwd : 0 < wd
  · rw [if_pos hwd, if_pos hwd, weightSumLoop_eq_filter]
    simp [mul_comm, add_comm]
  · rw [if_neg hwd, if_neg hwd]
    simp

theorem lookup_eq_none_iff {β : Type} (s : String) :
    ∀ l : List (String × β), l.lookup s = none ↔ s ∉ l.map Prod.fst
  | [] => by simp
  | (k, v) :: rest => by
      by_cases hk : s = k
      · subst hk
        simp [List.lookup]
      · simp [List.lookup, beq_false_of_ne hk, hk,
          lookup_eq_none_iff s rest]

theorem set_optimizer_none (n : String) (lr : ℚ)
    (hm : OPTIMIZER_CLS_NAMES.lookup (pyLower n) = none) :
    AttentionBase.set_optimizer n lr = Except.error (PyError.valueError
      ("Optimizer name should be one of [adagrad, adadelta, adam, " ++
       "momentum, rmsprop, sgd], you provided " ++ pyLower n ++ ".")) := by
  simp only [AttentionBase.set_optimizer]
  rw [hm]

theorem set_optimizer_some (n : String) (lr : ℚ) (cls : OptimizerCls)
    (hm : OPTIMIZER_CLS_NAMES.lookup (pyLower n) = some cls) :
    AttentionBase.set_optimizer n lr = Except.ok
      { cls := cls, learning_rate := lr,
        momentum :=
          if pyLower n = "momentum" then some (9 / 10) else none } := by
  simp only [AttentionBase.set_optimizer]
  rw [hm]
  show (if pyLower n = "momentum" then
      Except.ok
        ({ cls := cls, learning_rate := lr,
           momentum := some (9 / 10) } : OptimizerInst)
    else
      Except.ok
        ({ cls := cls, learning_rate := lr,
           momentum := none } : OptimizerInst)) = _
  by_cases hname : pyLower n = "momentum"
  · rw [if_pos hname, if_pos hname]
  · rw [if_neg hname, if_neg hname]

/-- C9: `set_optimizer` is case-insensitive: it raises `ValueError`
exactly when the lowercased name is not one of the six optimizer keys
(and every error it raises is a `ValueError`); otherwise it returns the
class the dictionary maps the lowercased name to, constructed with the
given learning rate, the momentum optimizer additionally receiving
momentum 0.9. -/
theorem set_optimizer_spec (n : String) (lr : ℚ) :
    ((∃ e, AttentionBase.set_optimizer n lr = Except.error e) ↔
      pyLower n ∉ (["adagrad", "adadelta", "adam", "momentum", "rmsprop",
        "sgd"] : List String)) ∧
    (∀ e, AttentionBase.set_optimizer n lr = Except.error e →
      ∃ m, e = PyError.valueError m) ∧
    (∀ cls, OPTIMIZER_CLS_NAMES.lookup (pyLower n) = some cls →
      AttentionBase.set_optimizer n lr = Except.ok
        { cls := cls, learning_rate := lr,
          momentum :=
            if pyLower n = "momentum" then some (9 / 10) else none }) := by
  have hkeys : OPTIMIZER_CLS_NAMES.map Prod.fst =
      (["adagrad", "adadelta", "adam", "momentum", "rmsprop",
        "sgd"] : List String) := rfl
  cases hm : OPTIMIZER_CLS_NAMES.lookup (pyLower n) with
  | none =>
      have hne := set_optimizer_none n lr hm
      have hnot : pyLower n ∉ (["adagrad", "adadelta", "adam", "momentum",
          "rmsprop", "sgd"] : List String) := by
        rw [← hkeys]
        exact (lookup_eq_none_iff (pyLower n) OPTIMIZER_CLS_NAMES).mp hm
      refine ⟨⟨fun _ => hnot, fun _ => ⟨_, hne⟩⟩, fun e he => ?_,
        fun cls hcls => by cases hcls⟩
      exact ⟨_, (Except.error.inj (hne.symm.trans he)).symm⟩
  | some cls =>
      have hok := set_optimizer_some n lr cls hm
      have hmem : pyLower n ∈ OPTIMIZER_CLS_NAMES.map Prod.fst := by
        by_contra hnot
        rw [(lookup_eq_none_iff (pyLower n) OPTIMIZER_CLS_NAMES).mpr hnot]
          at hm
        cases hm
      refine ⟨⟨fun hex => ?_, fun hnot => absurd hmem (hkeys ▸ hnot)⟩,
        fun e he => ?_, fun cls2 hcls2 => ?_⟩
      · rcases hex with ⟨e, he⟩
        rw [hok] at he
        cases he
      · rw [hok] at he
        cases he
      · cases hcls2
        exact hok

/-- C9, witness: `"Momentum"` (mixed case) selects the momentum optimizer
with momentum 0.9, and an unknown name is rejected. -/
theorem set_optimizer_witness :
    AttentionBase.set_optimizer "Momentum" (1 / 100) = Except.ok
      { cls := OptimizerCls.momentum, learning_rate := 1 / 100,
        momentum := some (9 / 10) } ∧
    ∃ e, AttentionBase.set_optimizer "invalid" 1 = Except.error e :=
  ⟨(set_optimizer_spec "Momentum" (1 / 100)).2.2 OptimizerCls.momentum rfl,
   (set_optimizer_spec "invalid" 1).1.mpr (by decide)⟩

end TimitSpeech

